import Mathlib

/-!
Verification of the process-supervision and log-streaming engine of the
indextts-hub repository against its natural-language specification.

Text is modelled as `List Char` (the result of lossy UTF-8 decoding);
filesystem, process and socket effects are modelled as explicit environment
records describing the outcomes the operating system returns, so every
function of the source becomes a pure Lean function of its environment and
its explicit state.
-/

set_option autoImplicit false

namespace IndexTTSHub

/-! ### Stream forwarder: `spawn_stream_reader` (src-tauri/src/commands/index_tts.rs, lines 94-141) -/

/-- Models Rust `text.replace("\r\n", "\n")` on the decoded chunk text:
a single left-to-right pass replacing each non-overlapping occurrence of
the two-character pattern. -/
def replaceCRLF : List Char → List Char
  | '\r' :: '\n' :: rest => '\n' :: replaceCRLF rest
  | c :: rest => c :: replaceCRLF rest
  | [] => []

/-- Models Rust `text.replace('\r', "\n")`: every remaining carriage return
becomes a line feed. -/
def replaceCR (l : List Char) : List Char :=
  l.map (fun c => if c = '\r' then '\n' else c)

/-- Models lines 124-128 of index_tts.rs: the decoded chunk is normalized by
the two `replace` calls, guarded by `text.contains('\r')`. -/
def normalizeChunk (l : List Char) : List Char :=
  if '\r' ∈ l then replaceCR (replaceCRLF l) else l

/-- Models the inner `while let Some(pos) = carry.find('\n')` loop of
`spawn_stream_reader`: returns the complete lines drained from the text, in
order, together with the remaining carry (the text after the last break). -/
def extractLines : List Char → List (List Char) × List Char
  | [] => ([], [])
  | c :: rest =>
    let e := extractLines rest
    if c = '\n' then ([] :: e.1, e.2)
    else
      match e.1 with
      | [] => ([], c :: e.2)
      | l :: ls => ((c :: l) :: ls, e.2)

/-- Models the read loop of `spawn_stream_reader` (lines 108-139): each
`Ok(n)` read appends the normalized chunk to the carry and drains complete
lines; `Ok(0)` (end of stream) flushes a non-empty carry as a final line.
Returns the sequence of lines passed to `forward_line`. -/
def readLoop : List (List Char) → List Char → List (List Char)
  | [], carry => if carry = [] then [] else [carry]
  | ch :: rest, carry =>
    let e := extractLines (carry ++ normalizeChunk ch)
    e.1 ++ readLoop rest e.2

/-- The sequence of lines `spawn_stream_reader` passes to `forward_line`, as
a function of the successive decoded read chunks. -/
def spawnStreamReaderLines (chunks : List (List Char)) : List (List Char) :=
  readLoop chunks []

/-- Modelled from the spec (refinement target, spec section 4.2): normalize
every line-ending variant — a carriage-return/line-feed pair, a lone
carriage return, a lone line feed — to a single logical break. -/
def normBreaks : List Char → List Char
  | '\r' :: '\n' :: rest => '\n' :: normBreaks rest
  | '\r' :: rest => '\n' :: normBreaks rest
  | c :: rest => c :: normBreaks rest
  | [] => []

/-- Split a text into emitted lines: complete lines before each break, plus a
final partial line flushed only when the text does not end with a break. -/
def finishLines (text : List Char) : List (List Char) :=
  let e := extractLines text
  if e.2 = [] then e.1 else e.1 ++ [e.2]

/-- Modelled from the spec (refinement target, spec sections 4.2 and 8): the
lines obtained by normalizing the whole decoded input and splitting it on the
single logical break, flushing a trailing partial line at end of stream. -/
def specStreamLines (text : List Char) : List (List Char) :=
  finishLines (normBreaks text)

/-- No carriage-return/line-feed pair is split across two adjacent read
chunks. -/
def chunksSeparated : List (List Char) → Bool
  | a :: b :: rest =>
    if a.getLast? = some '\r' ∧ b.head? = some '\n' then false
    else chunksSeparated (b :: rest)
  | _ => true

/-- Abstract handle to a spawned child process (`tokio::process::Child`);
an identity is tracked so that "the same handle" is expressible. -/
structure Child where
  pid : Nat
deriving DecidableEq, Repr

/-- Models the `ServerStatus` enum of server.rs. -/
inductive ServerStatus where
  | Running
  | Stopped
  | Starting
deriving DecidableEq, Repr

/-- Environment for `start_index_tts_server`: the outcomes the filesystem
and the operating system return during one call. -/
structure StartEnv where
  targetDirExists : Bool
  webuiExists : Bool
  spawnResult : Except String Child
  stdoutPiped : Bool
  stderrPiped : Bool
deriving Repr

/-- Result of one `start_index_tts_server` call: the stored handle slot
after the call, the returned value, and whether `command.spawn()` was
invoked. -/
structure StartOutcome where
  state : Option Child
  result : Except String ServerStatus
  spawnCalled : Bool
deriving Repr

/-- Models `start_index_tts_server` (server.rs lines 34-109): under the
state mutex, an already-held handle is rejected before anything else; then
the target directory and webui.py are checked, the child is spawned, its
pipes are taken, and the handle is stored. -/
def start_index_tts_server (env : StartEnv) (targetDir : String)
    (st : Option Child) : StartOutcome :=
  if st.isSome then
    ⟨st, .error "Server is already running.", false⟩
  else if !env.targetDirExists then
    ⟨st, .error ("Target directory does not exist: " ++ targetDir), false⟩
  else if !env.webuiExists then
    ⟨st, .error ("webui.py not found in " ++ targetDir ++
      ". Please complete the deployment first."), false⟩
  else
    match env.spawnResult with
    | .error e => ⟨st, .error ("Failed to start server: " ++ e), true⟩
    | .ok child =>
      if !env.stdoutPiped then ⟨st, .error "Failed to capture stdout", true⟩
      else if !env.stderrPiped then ⟨st, .error "Failed to capture stderr", true⟩
      else ⟨some child, .ok .Starting, true⟩

/-- Environment for the port reclaimer: the outcome of the t-th
`port_is_reachable` probe and of the t-th `force_kill_port` call. -/
structure PortEnv where
  probe : Nat → Bool
  kill : Nat → Except String Unit

/-- The failure message of `ensure_port_closed` (server.rs lines 260-264). -/
def portStillBoundMsg (port : Nat) : String :=
  "Port " ++ toString port ++
    " is still serving requests. Please close IndexTTS2 manually."

/-- Models the `for _ in 0..MAX_ATTEMPTS` loop of `ensure_port_closed`
(server.rs lines 249-268) with `n` iterations left and `i` probes already
consumed, and the final reachability re-check after the loop.  Returns the
result together with the number of `force_kill_port` invocations. -/
def ensureLoop (env : PortEnv) (port : Nat) : Nat → Nat → Except String Unit × Nat
  | 0, i => (if env.probe i then .error (portStillBoundMsg port) else .ok (), 0)
  | n + 1, i =>
    if env.probe i then
      match env.kill i with
      | .error e => (.error e, 1)
      | .ok _ =>
        let r := ensureLoop env port n (i + 1)
        (r.1, r.2 + 1)
    else (.ok (), 0)

/-- Models `ensure_port_closed` with `MAX_ATTEMPTS = 5`. -/
def ensure_port_closed (env : PortEnv) (port : Nat) : Except String Unit × Nat :=
  ensureLoop env port 5 0

/-- Environment for `stop_index_tts_server`: the outcome of
`child_process.kill()` and the environment of the port reclaimer. -/
structure StopEnv where
  killResult : Except String Unit
  portEnv : PortEnv

/-- Result of one `stop_index_tts_server` call: the handle slot after the
call, the returned value, and whether `ensure_port_closed` was invoked. -/
structure StopOutcome where
  state : Option Child
  result : Except String ServerStatus
  reclaimInvoked : Bool

/-- Models `stop_index_tts_server` (server.rs lines 112-130): the handle is
taken out of the slot; if one was held it is killed, a failed kill restores
the handle and returns the error; otherwise (and also when no handle was
held) `ensure_port_closed 7860` runs before `Stopped` is returned. -/
def stop_index_tts_server (env : StopEnv) (st : Option Child) : StopOutcome :=
  match st with
  | some c =>
    match env.killResult with
    | .error e => ⟨some c, .error ("Failed to stop server: " ++ e), false⟩
    | .ok _ =>
      match (ensure_port_closed env.portEnv 7860).1 with
      | .error e => ⟨none, .error e, true⟩
      | .ok _ => ⟨none, .ok .Stopped, true⟩
  | none =>
    match (ensure_port_closed env.portEnv 7860).1 with
    | .error e => ⟨none, .error e, true⟩
    | .ok _ => ⟨none, .ok .Stopped, true⟩

/-- Environment for `get_server_status`: the outcome of the non-blocking
`child.try_wait()` poll — an error, an exit status, or still running. -/
structure StatusEnv where
  pollResult : Except String (Option Nat)

/-- Models `get_server_status` (server.rs lines 133-148): with no handle the
status is `Stopped`; with a handle, a poll observing an exit clears the
handle and reports `Stopped`, a poll observing a live child reports
`Running`, and a poll error is propagated with the handle left in place. -/
def get_server_status (env : StatusEnv) (st : Option Child) :
    Option Child × Except String ServerStatus :=
  match st with
  | some c =>
    match env.pollResult with
    | .error e => (some c, .error ("Error checking child status: " ++ e))
    | .ok (some _) => (none, .ok .Stopped)
    | .ok none => (some c, .ok .Running)
  | none => (none, .ok .Stopped)
def portEnvClosed : PortEnv := ⟨fun _ => false, fun _ => .ok ()⟩

def portEnvStuck : PortEnv := ⟨fun _ => true, fun _ => .ok ()⟩

def stopEnvOk : StopEnv := ⟨.ok (), portEnvClosed⟩

def stopEnvKillFail : StopEnv := ⟨.error "boom", portEnvClosed⟩

/-- Models `forward_line` (index_tts.rs lines 143-158): when an accumulation
buffer is present and its lock is acquired, the line is pushed
unconditionally; the line is emitted to the sink exactly when it is
non-empty.  Returns the buffer after the call and whether the line was
emitted. -/
def forward_line (line : List Char) (buffer : Option (List (List Char)))
    (lockAcquired : Bool) : Option (List (List Char)) × Bool :=
  let buffer' :=
    match buffer with
    | some buf => if lockAcquired then some (buf ++ [line]) else some buf
    | none => none
  (buffer', !line.isEmpty)

/-- Environment for `run_command_with_streaming`: the outcomes of spawning,
of reading the two output streams (as decoded read chunks), of waiting, of
the exit status, and of the stderr accumulator lock. -/
structure RunEnv where
  spawnError : Option String
  stdoutChunks : List (List Char)
  stderrChunks : List (List Char)
  waitError : Option String
  exitSuccess : Bool
  stderrLockPoisoned : Bool

/-- The newline-joined rendering of a sequence of lines, as produced by
`buf.join("\n")` on the stderr accumulator. -/
def joinLines (ls : List (List Char)) : String :=
  String.intercalate "\n" (ls.map fun l => String.mk l)

/-- Models `run_command_with_streaming` (index_tts.rs lines 49-92): spawn,
wire one stream reader per pipe (the stderr reader accumulates every line it
forwards), wait for exit, and on a non-zero status fail with the step name
and the newline-joined accumulated stderr — or the placeholder
"command failed" when the accumulator lock is poisoned. -/
def run_command_with_streaming (env : RunEnv) (step : String) :
    Except String Unit :=
  match env.spawnError with
  | some e => .error ("Failed to spawn " ++ step ++ ": " ++ e)
  | none =>
    match env.waitError with
    | some e => .error ("Failed to wait for " ++ step ++ ": " ++ e)
    | none =>
      if env.exitSuccess then .ok ()
      else
        let excerpt :=
          if env.stderrLockPoisoned then "command failed"
          else joinLines (spawnStreamReaderLines env.stderrChunks)
        .error (step ++ " failed: " ++ excerpt)

def runEnvEmptyStderrFail : RunEnv :=
  ⟨none, [], [], none, false, false⟩

def runEnvTwoLineFail : RunEnv :=
  ⟨none, [], [['e', 'r', 'r', '1', '\n'], ['e', 'r', 'r', '2', '\n']], none,
    false, false⟩
/-- Claim C7, counterexample: a failing step with empty stderr produces the
message with an empty excerpt, not a placeholder message — the placeholder
"command failed" is used only when the accumulator lock is poisoned. -/
theorem run_command_empty_stderr_counterexample :
    run_command_with_streaming runEnvEmptyStderrFail "setup_env" =
      .error "setup_env failed: "
    ∧ "setup_env failed: " ≠ "setup_env failed: command failed" := by
  refine ⟨rfl, by decide⟩

/-- The externally visible actions `clone_index_tts_repo` can take, in
order. -/
inductive CloneStep where
  | repairReset
  | repairClean
  | removeDir
  | gitClone
deriving DecidableEq, Repr

/-- Environment for `clone_index_tts_repo`: the outcomes the filesystem and
the spawned git commands return during one call. -/
structure CloneEnv where
  targetExists : Bool
  targetIsDir : Bool
  gitCheckResult : Except String Bool
  coreFilesBefore : Bool
  resetResult : Except String Unit
  cleanResult : Except String Unit
  coreFilesAfterRepair : Bool
  dirEmpty : Except String Bool
  removeResult : Except String Unit
  cloneResult : Except String Unit

/-- Result of one `clone_index_tts_repo` call: the returned value and the
ordered list of actions taken. -/
structure CloneOutcome where
  result : Except String String
  steps : List CloneStep
deriving Repr

/-- A single-quoted rendering of a path, as produced by the quoted format
placeholders in the source messages (character 39 is the single quote). -/
def quoted (s : String) : String :=
  String.singleton (Char.ofNat 39) ++ s ++ String.singleton (Char.ofNat 39)

/-- Models `repair_existing_repo` (index_tts.rs lines 160-173): a hard reset
step, then a forced clean step, stopping at the first failure. -/
def repair_existing_repo (env : CloneEnv) : Except String Unit × List CloneStep :=
  match env.resetResult with
  | .error e => (.error e, [.repairReset])
  | .ok _ =>
    match env.cleanResult with
    | .error e => (.error e, [.repairReset, .repairClean])
    | .ok _ => (.ok (), [.repairReset, .repairClean])

/-- The final `git clone` invocation of `clone_index_tts_repo` (lines
267-270), appended to the actions already taken. -/
def runGitClone (env : CloneEnv) (steps : List CloneStep) : CloneOutcome :=
  match env.cloneResult with
  | .error e => ⟨.error e, steps ++ [.gitClone]⟩
  | .ok _ => ⟨.ok "SUCCESS", steps ++ [.gitClone]⟩

/-- Models `clone_index_tts_repo` (index_tts.rs lines 176-271): an existing
directory that is a git work tree is kept when complete, repaired exactly
once when incomplete, and rejected when still incomplete after the repair; a
non-git directory is removed when empty and rejected when non-empty; in the
remaining cases the repository is cloned. -/
def clone_index_tts_repo (env : CloneEnv) (targetDir : String) : CloneOutcome :=
  if env.targetExists && env.targetIsDir then
    match env.gitCheckResult with
    | .error e =>
      ⟨.error ("Failed to check if " ++ targetDir ++ " is a git repo: " ++ e), []⟩
    | .ok true =>
      if env.coreFilesBefore then ⟨.ok "SUCCESS", []⟩
      else
        let r := repair_existing_repo env
        match r.1 with
        | .error _ =>
          ⟨.error ("Existing repository at " ++ quoted targetDir ++
            " is missing required files and could not be repaired. " ++
            "Please clean the directory and retry."), r.2⟩
        | .ok _ =>
          if env.coreFilesAfterRepair then ⟨.ok "SUCCESS", r.2⟩
          else
            ⟨.error ("Repository at " ++ quoted targetDir ++
              " is still missing required files after repair. " ++
              "Please remove the folder and deploy again."), r.2⟩
    | .ok false =>
      match env.dirEmpty with
      | .ok true =>
        match env.removeResult with
        | .error e =>
          ⟨.error ("Failed to reset empty target directory " ++
            quoted targetDir ++ ": " ++ e), [.removeDir]⟩
        | .ok _ => runGitClone env [.removeDir]
      | .ok false =>
        ⟨.error ("Target directory " ++ quoted targetDir ++
          " exists, is not a git repository, and contains files. " ++
          "Please choose an empty directory or clean it before retrying."), []⟩
      | .error e => ⟨.error e, []⟩
  else runGitClone env []
def cloneEnvRepairFail : CloneEnv :=
  ⟨true, true, .ok true, false, .ok (), .ok (), false, .ok false, .ok (), .ok ()⟩

def cloneEnvEmptyDir : CloneEnv :=
  ⟨true, true, .ok false, false, .ok (), .ok (), false, .ok true, .ok (), .ok ()⟩

/-! ### Theorems -/

theorem replaceCRLF_cons (c : Char) (rest : List Char) (h : c ≠ '\r') :
    replaceCRLF (c :: rest) = c :: replaceCRLF rest := by
  rw [replaceCRLF.eq_def]
  split
  · rename_i heq; simp at heq; exact absurd heq.1 h
  · rename_i heq; simp at heq; simp [heq]
  · rename_i heq; simp at heq

theorem normBreaks_cons (c : Char) (rest : List Char) (h : c ≠ '\r') :
    normBreaks (c :: rest) = c :: normBreaks rest := by
  rw [normBreaks.eq_def]
  split
  · rename_i heq; simp at heq; exact absurd heq.1 h
  · rename_i heq; simp at heq; exact absurd heq.1 h
  · rename_i heq; simp at heq; simp [heq]
  · rename_i heq; simp at heq

theorem normBreaks_crlf (rest : List Char) :
    normBreaks ('\r' :: '\n' :: rest) = '\n' :: normBreaks rest := rfl

theorem replaceCRLF_crlf (rest : List Char) :
    replaceCRLF ('\r' :: '\n' :: rest) = '\n' :: replaceCRLF rest := rfl

theorem replaceCRLF_cr_cons (c : Char) (rest : List Char) (h : c ≠ '\n') :
    replaceCRLF ('\r' :: c :: rest) = '\r' :: replaceCRLF (c :: rest) := by
  rw [replaceCRLF.eq_def]
  split
  · rename_i heq; simp at heq; exact absurd heq.1 h
  · rename_i hno heq; simp at heq; rw [← heq.1, ← heq.2]
  · rename_i heq; simp at heq

theorem normBreaks_cr_cons (c : Char) (rest : List Char) (h : c ≠ '\n') :
    normBreaks ('\r' :: c :: rest) = '\n' :: normBreaks (c :: rest) := by
  rw [normBreaks.eq_def]
  split
  · rename_i heq; simp at heq; exact absurd heq.1 h
  · rename_i hno heq; simp at heq; rw [← heq]
  · rename_i hno1 hno2 heq; simp at heq; exact absurd heq.1.symm hno2
  · rename_i heq; simp at heq

theorem replaceCR_replaceCRLF (l : List Char) :
    replaceCR (replaceCRLF l) = normBreaks l := by
  induction l using normBreaks.induct with
  | case1 rest ih =>
    rw [replaceCRLF_crlf, normBreaks_crlf]
    simpa [replaceCR] using ih
  | case2 rest h ih =>
    cases rest with
    | nil => rfl
    | cons c' rest' =>
      have hc : c' ≠ '\n' := fun hh => h rest' (by rw [hh])
      rw [replaceCRLF_cr_cons c' rest' hc, normBreaks_cr_cons c' rest' hc]
      simpa [replaceCR] using ih
  | case3 c rest h hc ih =>
    have hcr : c ≠ '\r' := fun hh => hc hh
    rw [replaceCRLF_cons c rest hcr, normBreaks_cons c rest hcr]
    simpa [replaceCR, hcr] using ih
  | case4 => rfl
theorem normBreaks_no_cr (l : List Char) (h : '\r' ∉ l) : normBreaks l = l := by
  induction l with
  | nil => rfl
  | cons c rest ih =>
    have hc : c ≠ '\r' := fun hh => h (by simp [hh])
    rw [normBreaks_cons c rest hc, ih (fun hm => h (by simp [hm]))]

theorem normalizeChunk_eq_normBreaks (l : List Char) :
    normalizeChunk l = normBreaks l := by
  unfold normalizeChunk
  split
  · exact replaceCR_replaceCRLF l
  · rename_i h; rw [normBreaks_no_cr l h]

theorem normBreaks_append (a b : List Char)
    (h : ¬(a.getLast? = some '\r' ∧ b.head? = some '\n')) :
    normBreaks (a ++ b) = normBreaks a ++ normBreaks b := by
  induction a using normBreaks.induct with
  | case1 rest ih =>
    have h' : ¬(rest.getLast? = some '\r' ∧ b.head? = some '\n') := by
      cases rest with
      | nil => simp
      | cons c rest' => simpa using h
    rw [List.cons_append, List.cons_append, normBreaks_crlf, normBreaks_crlf,
      ih h', List.cons_append]
  | case2 rest hpat ih =>
    cases rest with
    | nil =>
      cases b with
      | nil => rfl
      | cons c' b' =>
        have hc : c' ≠ '\n' := by
          intro hh
          exact h (by simp [hh])
        simp only [List.singleton_append, List.nil_append]
        rw [normBreaks_cr_cons c' b' hc]
        rfl
    | cons c' rest' =>
      have hc : c' ≠ '\n' := fun hh => hpat rest' (by rw [hh])
      have h' : ¬((c' :: rest').getLast? = some '\r' ∧ b.head? = some '\n') := by
        simpa using h
      rw [List.cons_append, List.cons_append, normBreaks_cr_cons c' rest' hc,
        normBreaks_cr_cons c' (rest' ++ b) hc, ← List.cons_append, ih h',
        List.cons_append]
  | case3 c rest hpat hcr ih =>
    have hc : c ≠ '\r' := fun hh => hcr hh
    have h' : ¬(rest.getLast? = some '\r' ∧ b.head? = some '\n') := by
      cases rest with
      | nil => intro hctr; simp at hctr
      | cons c2 rest2 => simpa using h
    rw [List.cons_append, normBreaks_cons c rest hc,
      normBreaks_cons c (rest ++ b) hc, ih h', List.cons_append]
  | case4 => simp [normBreaks]
theorem extractLines_nl_cons (rest : List Char) :
    extractLines ('\n' :: rest) =
      ([] :: (extractLines rest).1, (extractLines rest).2) := by
  simp [extractLines]

theorem extractLines_cons_nil (c : Char) (rest : List Char) (h : c ≠ '\n')
    (he : (extractLines rest).1 = []) :
    extractLines (c :: rest) = ([], c :: (extractLines rest).2) := by
  simp [extractLines, h, he]

theorem extractLines_cons_cons (c : Char) (rest : List Char) (l0 : List Char)
    (ls : List (List Char)) (h : c ≠ '\n')
    (he : (extractLines rest).1 = l0 :: ls) :
    extractLines (c :: rest) = ((c :: l0) :: ls, (extractLines rest).2) := by
  simp [extractLines, h, he]

theorem extractLines_carry_no_nl (l : List Char) : '\n' ∉ (extractLines l).2 := by
  induction l with
  | nil => simp [extractLines]
  | cons c rest ih =>
    by_cases hc : c = '\n'
    · subst hc
      rw [extractLines_nl_cons]
      exact ih
    · rcases he : (extractLines rest).1 with _ | ⟨l0, ls⟩
      · rw [extractLines_cons_nil c rest hc he]
        intro hmem
        rcases List.mem_cons.mp hmem with h1 | h2
        · exact hc h1.symm
        · exact ih h2
      · rw [extractLines_cons_cons c rest l0 ls hc he]
        exact ih

theorem extractLines_no_nl (l : List Char) (h : '\n' ∉ l) :
    extractLines l = ([], l) := by
  induction l with
  | nil => rfl
  | cons c rest ih =>
    have hc : c ≠ '\n' := fun hh => h (by simp [hh])
    have ih' := ih (fun hm => h (by simp [hm]))
    rw [extractLines_cons_nil c rest hc (by rw [ih']), ih']

theorem extractLines_append (x y : List Char) :
    extractLines (x ++ y) =
      ((extractLines x).1 ++ (extractLines ((extractLines x).2 ++ y)).1,
       (extractLines ((extractLines x).2 ++ y)).2) := by
  induction x with
  | nil => simp [extractLines]
  | cons c x' ih =>
    by_cases hc : c = '\n'
    · subst hc
      rw [List.cons_append, extractLines_nl_cons (x' ++ y), extractLines_nl_cons x', ih]
      simp
    · rcases hx : (extractLines x').1 with _ | ⟨l0, ls⟩
      · rw [List.cons_append, extractLines_cons_nil c x' hc hx]
        have h1 : (extractLines (x' ++ y)).1 =
            (extractLines ((extractLines x').2 ++ y)).1 := by
          rw [ih, hx]; simp
        have h2 : (extractLines (x' ++ y)).2 =
            (extractLines ((extractLines x').2 ++ y)).2 := by
          rw [ih]
        rcases hy : (extractLines ((extractLines x').2 ++ y)).1 with _ | ⟨l1, t⟩
        · rw [extractLines_cons_nil c (x' ++ y) hc (by rw [h1, hy])]
          simp only [List.cons_append]
          rw [extractLines_cons_nil c ((extractLines x').2 ++ y) hc hy]
          simp [h2]
        · rw [extractLines_cons_cons c (x' ++ y) l1 t hc (by rw [h1, hy])]
          simp only [List.cons_append]
          rw [extractLines_cons_cons c ((extractLines x').2 ++ y) l1 t hc hy]
          simp [h2]
      · rw [List.cons_append, extractLines_cons_cons c x' l0 ls hc hx]
        have h1 : (extractLines (x' ++ y)).1 =
            l0 :: (ls ++ (extractLines ((extractLines x').2 ++ y)).1) := by
          rw [ih, hx]; simp
        have h2 : (extractLines (x' ++ y)).2 =
            (extractLines ((extractLines x').2 ++ y)).2 := by
          rw [ih]
        rw [extractLines_cons_cons c (x' ++ y) l0
          (ls ++ (extractLines ((extractLines x').2 ++ y)).1) hc h1]
        simp [h2]
theorem readLoop_eq (chunks : List (List Char)) (carry : List Char)
    (h : '\n' ∉ carry) :
    readLoop chunks carry =
      finishLines (carry ++ (chunks.map normalizeChunk).flatten) := by
  induction chunks generalizing carry with
  | nil =>
    simp only [readLoop, List.map_nil, List.flatten_nil, List.append_nil]
    rw [finishLines, extractLines_no_nl carry h]
    by_cases hc : carry = [] <;> simp [hc]
  | cons ch rest ih =>
    simp only [readLoop, List.map_cons, List.flatten_cons]
    rw [ih _ (extractLines_carry_no_nl (carry ++ normalizeChunk ch))]
    rw [finishLines, finishLines, ← List.append_assoc,
      extractLines_append (carry ++ normalizeChunk ch) (rest.map normalizeChunk).flatten]
    by_cases hc :
        (extractLines ((extractLines (carry ++ normalizeChunk ch)).2 ++
          (rest.map normalizeChunk).flatten)).2 = [] <;>
      simp [hc]

theorem normBreaks_flatten (chunks : List (List Char))
    (hne : ∀ ch ∈ chunks, ch ≠ [])
    (hsep : chunksSeparated chunks = true) :
    normBreaks chunks.flatten = (chunks.map normBreaks).flatten := by
  induction chunks with
  | nil => rfl
  | cons a rest ih =>
    have hne' : ∀ ch ∈ rest, ch ≠ [] := fun ch hm => hne ch (List.mem_cons_of_mem a hm)
    have hsep' : chunksSeparated rest = true := by
      cases rest with
      | nil => rfl
      | cons b rest' =>
        rw [chunksSeparated] at hsep
        split at hsep
        · exact absurd hsep (by simp)
        · exact hsep
    have hbd : ¬(a.getLast? = some '\r' ∧ rest.flatten.head? = some '\n') := by
      cases rest with
      | nil => simp
      | cons b rest' =>
        rw [chunksSeparated] at hsep
        split at hsep
        · exact absurd hsep (by simp)
        · rename_i hcond
          intro hctr
          apply hcond
          refine ⟨hctr.1, ?_⟩
          have hb : b ≠ [] := hne b (by simp)
          cases b with
          | nil => exact absurd rfl hb
          | cons c b' => simpa using hctr.2
    simp only [List.flatten_cons, List.map_cons]
    rw [normBreaks_append a rest.flatten hbd, ih hne' hsep']
/-- Claim C1, counterexample: when the two-byte sequence carriage-return
line-feed is split across two read chunks, `spawn_stream_reader` forwards an
extra empty line, so the forwarded lines differ from the spec's
normalize-then-split of the whole input.  The input "a\r\nb" delivered as
the chunks "a\r" and "\nb" yields the lines "a", "", "b" while the spec
asks for "a", "b". -/
theorem spawn_stream_reader_crlf_split_counterexample :
    spawnStreamReaderLines [['a', '\r'], ['\n', 'b']] = [['a'], [], ['b']] ∧
    specStreamLines (List.flatten [['a', '\r'], ['\n', 'b']]) = [['a'], ['b']] ∧
    spawnStreamReaderLines [['a', '\r'], ['\n', 'b']] ≠
      specStreamLines (List.flatten [['a', '\r'], ['\n', 'b']]) := by
  refine ⟨rfl, rfl, ?_⟩
  decide

/-- Claim C1 (amended): for every delivery of the decoded input as non-empty
read chunks in which no carriage-return line-feed pair is split across a
chunk boundary, the sequence of lines `spawn_stream_reader` passes to
`forward_line` equals the sequence obtained by normalizing every line-ending
variant of the whole input to a single logical break and splitting on that
break, including a final partial line flushed at end-of-stream when the
input does not end with a break. -/
theorem spawn_stream_reader_lines_spec (chunks : List (List Char))
    (hne : ∀ ch ∈ chunks, ch ≠ [])
    (hsep : chunksSeparated chunks = true) :
    spawnStreamReaderLines chunks = specStreamLines chunks.flatten := by
  have hfun : normalizeChunk = normBreaks := funext normalizeChunk_eq_normBreaks
  rw [spawnStreamReaderLines, readLoop_eq chunks [] (by simp), List.nil_append,
    hfun, ← normBreaks_flatten chunks hne hsep, specStreamLines]

/-- Claim C1 witness: the amended theorem applied to the concrete chunk
delivery "a\r\n", "b". -/
theorem spawn_stream_reader_lines_spec_witness :
    spawnStreamReaderLines [['a', '\r', '\n'], ['b']] =
      specStreamLines (List.flatten [['a', '\r', '\n'], ['b']]) :=
  spawn_stream_reader_lines_spec [['a', '\r', '\n'], ['b']] (by decide) (by decide)
/-! ### Server supervisor (src-tauri/src/commands/server.rs) -/

theorem ensureLoop_ok_iff (env : PortEnv) (port : Nat) :
    ∀ (n i : Nat), (ensureLoop env port n i).1 = .ok () ↔
      ∃ k, k ≤ n ∧ env.probe (i + k) = false ∧
        ∀ j, j < k → env.probe (i + j) = true ∧ env.kill (i + j) = .ok () := by
  intro n
  induction n with
  | zero =>
    intro i
    by_cases hp : env.probe i
    · simp only [ensureLoop, hp, if_true]
      constructor
      · intro hcontra; exact absurd hcontra (by simp)
      · rintro ⟨k, hk, hfalse, -⟩
        have hk0 : k = 0 := Nat.le_zero.mp hk
        subst hk0
        rw [Nat.add_zero, hp] at hfalse
        exact absurd hfalse (by simp)
    · simp only [ensureLoop, hp, if_false, Bool.false_eq_true]
      constructor
      · intro _
        exact ⟨0, Nat.le_refl 0, by simpa using Bool.of_not_eq_true hp, by omega⟩
      · intro _; trivial
  | succ n ih =>
    intro i
    by_cases hp : env.probe i
    · cases hk : env.kill i with
      | error e =>
        simp only [ensureLoop, hp, if_true, hk]
        constructor
        · intro hcontra; exact absurd hcontra (by simp)
        · rintro ⟨k, hk2, hfalse, hall⟩
          cases k with
          | zero => rw [Nat.add_zero, hp] at hfalse; exact absurd hfalse (by simp)
          | succ k' =>
            have h0 := hall 0 (Nat.succ_pos k')
            rw [Nat.add_zero, hk] at h0
            exact absurd h0.2 (by simp)
      | ok u =>
        cases u
        simp only [ensureLoop, hp, if_true, hk]
        rw [ih (i + 1)]
        constructor
        · rintro ⟨k, hk2, hfalse, hall⟩
          refine ⟨k + 1, by omega, ?_, ?_⟩
          · have harith : i + 1 + k = i + (k + 1) := by omega
            rwa [harith] at hfalse
          · intro j hj
            cases j with
            | zero => exact ⟨by rwa [Nat.add_zero], by rwa [Nat.add_zero]⟩
            | succ j' =>
              have harith : i + (j' + 1) = i + 1 + j' := by omega
              rw [harith]
              exact hall j' (by omega)
        · rintro ⟨k, hk2, hfalse, hall⟩
          cases k with
          | zero => rw [Nat.add_zero, hp] at hfalse; exact absurd hfalse (by simp)
          | succ k' =>
            refine ⟨k', by omega, ?_, ?_⟩
            · have harith : i + (k' + 1) = i + 1 + k' := by omega
              rwa [harith] at hfalse
            · intro j hj
              have harith : i + 1 + j = i + (j + 1) := by omega
              rw [harith]
              exact hall (j + 1) (by omega)
    · simp only [ensureLoop, hp, if_false]
      constructor
      · intro _
        exact ⟨0, Nat.zero_le _, by simpa using Bool.of_not_eq_true hp, by omega⟩
      · intro _; simp

theorem ensureLoop_exhausted (env : PortEnv) (port : Nat) :
    ∀ (n i : Nat), (∀ k, k ≤ n → env.probe (i + k) = true) →
      (∀ k, k < n → env.kill (i + k) = .ok ()) →
      (ensureLoop env port n i).1 = .error (portStillBoundMsg port) := by
  intro n
  induction n with
  | zero =>
    intro i hp _
    have h0 := hp 0 (Nat.le_refl 0)
    rw [Nat.add_zero] at h0
    simp [ensureLoop, h0]
  | succ n ih =>
    intro i hp hk
    have h0 := hp 0 (Nat.zero_le _)
    rw [Nat.add_zero] at h0
    have hk0 := hk 0 (Nat.succ_pos n)
    rw [Nat.add_zero] at hk0
    simp only [ensureLoop, h0, if_true, hk0]
    exact ih (i + 1) (fun k hkk => by
        have := hp (k + 1) (by omega)
        rwa [show i + (k + 1) = i + 1 + k by omega] at this)
      (fun k hkk => by
        have := hk (k + 1) (by omega)
        rwa [show i + (k + 1) = i + 1 + k by omega] at this)
/-- Claim C2: when a handle is already held, a second
`start_index_tts_server` call returns the already-running error, leaves the
stored handle unchanged, and never reaches `command.spawn()`. -/
theorem start_index_tts_server_already_running (env : StartEnv)
    (targetDir : String) (c : Child) :
    start_index_tts_server env targetDir (some c) =
      ⟨some c, .error "Server is already running.", false⟩ := rfl

/-- Claim C4: `get_server_status` returns `Stopped` when no handle is held;
when a handle is held and the poll observes an exit it clears the handle and
returns `Stopped`, after which every further status call returns `Stopped`;
when the poll observes a live child it returns `Running` and keeps the
handle. -/
theorem get_server_status_spec (env : StatusEnv) (st : Option Child) :
    (st = none → get_server_status env st = (none, .ok .Stopped))
    ∧ (∀ c es, st = some c → env.pollResult = .ok (some es) →
        get_server_status env st = (none, .ok .Stopped)
        ∧ ∀ env' : StatusEnv, get_server_status env' none = (none, .ok .Stopped))
    ∧ (∀ c, st = some c → env.pollResult = .ok none →
        get_server_status env st = (some c, .ok .Running)) := by
  refine ⟨?_, ?_, ?_⟩
  · intro h; subst h; rfl
  · intro c es hst hp
    subst hst
    exact ⟨by simp [get_server_status, hp], fun env' => rfl⟩
  · intro c hst hp
    subst hst
    simp [get_server_status, hp]

/-- Claim C4 witness: the theorem applied to a held handle whose child has
exited, showing the call and every subsequent call return `Stopped`. -/
theorem get_server_status_spec_witness :
    get_server_status ⟨.ok (some 0)⟩ (some ⟨1⟩) = (none, .ok .Stopped)
    ∧ get_server_status ⟨.ok (some 0)⟩ none = (none, .ok .Stopped) := by
  have h := (get_server_status_spec ⟨.ok (some 0)⟩ (some ⟨1⟩)).2.1 ⟨1⟩ 0 rfl rfl
  exact ⟨h.1, h.2 ⟨.ok (some 0)⟩⟩

/-- Claim C5: when a handle is held and killing the child fails,
`stop_index_tts_server` restores the same handle into the slot and returns
the kill error, so the supervisor state is unchanged and a retry is
possible. -/
theorem stop_index_tts_server_kill_failure (env : StopEnv) (st : Option Child)
    (c : Child) (e : String) (hst : st = some c)
    (hk : env.killResult = .error e) :
    stop_index_tts_server env st =
      ⟨some c, .error ("Failed to stop server: " ++ e), false⟩ := by
  subst hst
  simp [stop_index_tts_server, hk]

/-- Claim C5 witness: the theorem applied to a concrete failing kill. -/
theorem stop_index_tts_server_kill_failure_witness :
    stop_index_tts_server stopEnvKillFail (some ⟨1⟩) =
      ⟨some ⟨1⟩, .error "Failed to stop server: boom", false⟩ :=
  stop_index_tts_server_kill_failure stopEnvKillFail (some ⟨1⟩) ⟨1⟩ "boom" rfl rfl

/-- Claim C3: `stop_index_tts_server` returns `Stopped` only after
`ensure_port_closed` on port 7860 succeeded; the reclaimer runs even when no
handle was held; and a reclaimer failure is returned as the stop error. -/
theorem stop_index_tts_server_reclaims_port (env : StopEnv) (st : Option Child) :
    ((stop_index_tts_server env st).result = .ok .Stopped →
      (stop_index_tts_server env st).reclaimInvoked = true
      ∧ (ensure_port_closed env.portEnv 7860).1 = .ok ())
    ∧ (st = none → (stop_index_tts_server env st).reclaimInvoked = true)
    ∧ (∀ e, (ensure_port_closed env.portEnv 7860).1 = .error e →
        st = none ∨ env.killResult = .ok () →
        (stop_index_tts_server env st).result = .error e) := by
  cases st with
  | none =>
    cases hp : (ensure_port_closed env.portEnv 7860).1 with
    | error e => simp [stop_index_tts_server, hp]
    | ok u => cases u; simp [stop_index_tts_server, hp]
  | some c =>
    cases hk : env.killResult with
    | error e =>
      simp [stop_index_tts_server, hk]
    | ok u =>
      cases u
      cases hp : (ensure_port_closed env.portEnv 7860).1 with
      | error e => simp [stop_index_tts_server, hk, hp]
      | ok u2 => cases u2; simp [stop_index_tts_server, hk, hp]

/-- Claim C3 witness: the theorem applied to a stop call with no handle held
and an immediately unreachable port: the reclaimer is invoked and succeeds. -/
theorem stop_index_tts_server_reclaims_port_witness :
    (stop_index_tts_server stopEnvOk none).reclaimInvoked = true
    ∧ (ensure_port_closed stopEnvOk.portEnv 7860).1 = .ok () :=
  (stop_index_tts_server_reclaims_port stopEnvOk none).1 rfl

/-- Claim C6: `ensure_port_closed` succeeds exactly when some reachability
probe within the five-attempt loop (or the final re-check) observes the port
unreachable after only successful kills; an immediately unreachable port
yields success with zero `force_kill_port` invocations; a port reachable at
every probe with all kills succeeding yields the still-bound message, which
names the port and instructs the operator to close the application
manually. -/
theorem ensure_port_closed_spec (env : PortEnv) (port : Nat) :
    ((ensure_port_closed env port).1 = .ok () ↔
      ∃ i, i ≤ 5 ∧ env.probe i = false ∧
        ∀ j, j < i → env.probe j = true ∧ env.kill j = .ok ())
    ∧ (env.probe 0 = false → ensure_port_closed env port = (.ok (), 0))
    ∧ ((∀ i, i ≤ 5 → env.probe i = true) → (∀ j, j < 5 → env.kill j = .ok ()) →
        (ensure_port_closed env port).1 = .error (portStillBoundMsg port))
    ∧ (∃ s t : String, s ++ toString port ++ t = portStillBoundMsg port) := by
  refine ⟨?_, ?_, ?_, ?_⟩
  · have h := ensureLoop_ok_iff env port 5 0
    simpa [ensure_port_closed] using h
  · intro h0
    simp [ensure_port_closed, ensureLoop, h0]
  · intro hp hk
    have h := ensureLoop_exhausted env port 5 0
      (fun k hkk => by simpa using hp k hkk)
      (fun k hkk => by simpa using hk k hkk)
    simpa [ensure_port_closed] using h
  · exact ⟨"Port ", " is still serving requests. Please close IndexTTS2 manually.", rfl⟩

/-- Claim C6 witness: the theorem applied to an unreachable port (success,
no kill invoked) and to a permanently reachable port (the still-bound
message). -/
theorem ensure_port_closed_spec_witness :
    ensure_port_closed portEnvClosed 7860 = (.ok (), 0)
    ∧ (ensure_port_closed portEnvStuck 7860).1 =
        .error (portStillBoundMsg 7860) :=
  ⟨(ensure_port_closed_spec portEnvClosed 7860).2.1 rfl,
   (ensure_port_closed_spec portEnvStuck 7860).2.2.1
     (fun _ _ => rfl) (fun _ _ => rfl)⟩
/-! ### Step runner: `run_command_with_streaming` and `forward_line`
(src-tauri/src/commands/index_tts.rs) -/

/-- Claim C7 (amended): a step whose command exits zero succeeds; a step
whose command exits non-zero fails with a message of the step name and the
newline-joined accumulated stderr lines in emission order (empty when no
stderr was emitted), with the placeholder "command failed" used only when
the accumulator was unavailable (lock poisoned). -/
theorem run_command_with_streaming_spec (env : RunEnv) (step : String)
    (hspawn : env.spawnError = none) (hwait : env.waitError = none) :
    (env.exitSuccess = true → run_command_with_streaming env step = .ok ())
    ∧ (env.exitSuccess = false → env.stderrLockPoisoned = false →
        run_command_with_streaming env step =
          .error (step ++ " failed: " ++
            joinLines (spawnStreamReaderLines env.stderrChunks)))
    ∧ (env.exitSuccess = false → env.stderrLockPoisoned = true →
        run_command_with_streaming env step =
          .error (step ++ " failed: command failed")) := by
  refine ⟨?_, ?_, ?_⟩
  · intro h1
    simp [run_command_with_streaming, hspawn, hwait, h1]
  · intro h1 h2
    simp [run_command_with_streaming, hspawn, hwait, h1, h2]
  · intro h1 h2
    simp [run_command_with_streaming, hspawn, hwait, h1, h2]
    rw [String.append_assoc]
    rfl

/-- Claim C7 witness: the amended theorem applied to a failing step whose
stderr emitted the lines "err1" and "err2". -/
theorem run_command_with_streaming_spec_witness :
    run_command_with_streaming runEnvTwoLineFail "setup_env" =
      .error "setup_env failed: err1\nerr2" := by
  have h := (run_command_with_streaming_spec runEnvTwoLineFail "setup_env"
    rfl rfl).2.1 rfl rfl
  rw [h]
  rfl

/-- Claim C8, counterexample: `forward_line` pushes the empty line into the
accumulation buffer (the push is unconditional) while suppressing it from
the live log, so a blank line does appear in the retained buffer. -/
theorem forward_line_empty_line_counterexample :
    forward_line [] (some []) true = (some [[]], false)
    ∧ (some [[]] : Option (List (List Char))) ≠ some [] := by
  refine ⟨rfl, by decide⟩

/-- Claim C8 (amended): when accumulation is requested and the lock is
acquired, every line — empty or not — is appended to the buffer, and a line
is forwarded to the sink exactly when it is non-empty; without a buffer
nothing is retained. -/
theorem forward_line_spec (line : List Char) (buf : List (List Char)) :
    (forward_line line (some buf) true).1 = some (buf ++ [line])
    ∧ ((forward_line line (some buf) true).2 = true ↔ line ≠ [])
    ∧ (∀ lk : Bool, (forward_line line none lk).1 = none) := by
  refine ⟨rfl, ?_, fun lk => rfl⟩
  simp [forward_line]
/-! ### Repository clone and repair: `clone_index_tts_repo` and
`repair_existing_repo` (src-tauri/src/commands/index_tts.rs) -/

/-- Claim C9: when the target directory is a git work tree that fails the
content-completeness check, exactly one repair cycle runs — a hard reset
step then a forced clean step — completeness is re-checked once, and when it
still fails the call fails permanently with the message instructing the
operator to remove the folder; the action trace shows the repair is never
attempted a second time. -/
theorem clone_index_tts_repo_repair_once (env : CloneEnv) (targetDir : String)
    (h1 : env.targetExists = true) (h2 : env.targetIsDir = true)
    (h3 : env.gitCheckResult = .ok true) (h4 : env.coreFilesBefore = false)
    (h5 : env.resetResult = .ok ()) (h6 : env.cleanResult = .ok ())
    (h7 : env.coreFilesAfterRepair = false) :
    clone_index_tts_repo env targetDir =
      ⟨.error ("Repository at " ++ quoted targetDir ++
        " is still missing required files after repair. " ++
        "Please remove the folder and deploy again."),
       [.repairReset, .repairClean]⟩ := by
  simp [clone_index_tts_repo, repair_existing_repo, h1, h2, h3, h4, h5, h6, h7]

/-- Claim C9 witness: the theorem applied to a concrete environment in which
the marker files are still missing after a successful reset and clean. -/
theorem clone_index_tts_repo_repair_once_witness :
    clone_index_tts_repo cloneEnvRepairFail "repo" =
      ⟨.error ("Repository at " ++ quoted "repo" ++
        " is still missing required files after repair. " ++
        "Please remove the folder and deploy again."),
       [.repairReset, .repairClean]⟩ :=
  clone_index_tts_repo_repair_once cloneEnvRepairFail "repo"
    rfl rfl rfl rfl rfl rfl rfl

/-- Claim C10: when the target directory exists, is a directory and is not a
git work tree, an empty directory is removed and the clone proceeds, while a
non-empty directory makes the call fail without removing anything and
without attempting the clone. -/
theorem clone_index_tts_repo_non_git_dir (env : CloneEnv) (targetDir : String)
    (h1 : env.targetExists = true) (h2 : env.targetIsDir = true)
    (h3 : env.gitCheckResult = .ok false) :
    (env.dirEmpty = .ok true → env.removeResult = .ok () →
      (clone_index_tts_repo env targetDir).steps = [.removeDir, .gitClone]
      ∧ ((clone_index_tts_repo env targetDir).result = .ok "SUCCESS" ↔
          env.cloneResult = .ok ()))
    ∧ (env.dirEmpty = .ok false →
        clone_index_tts_repo env targetDir =
          ⟨.error ("Target directory " ++ quoted targetDir ++
            " exists, is not a git repository, and contains files. " ++
            "Please choose an empty directory or clean it before retrying."),
           []⟩) := by
  constructor
  · intro he hr
    cases hc : env.cloneResult with
    | error e =>
      simp [clone_index_tts_repo, runGitClone, h1, h2, h3, he, hr, hc]
    | ok u =>
      cases u
      simp [clone_index_tts_repo, runGitClone, h1, h2, h3, he, hr, hc]
  · intro he
    simp [clone_index_tts_repo, h1, h2, h3, he]

/-- Claim C10 witness: the theorem applied to a concrete empty non-git
directory: it is removed and the clone is attempted and succeeds. -/
theorem clone_index_tts_repo_non_git_dir_witness :
    (clone_index_tts_repo cloneEnvEmptyDir "repo").steps =
      [.removeDir, .gitClone]
    ∧ ((clone_index_tts_repo cloneEnvEmptyDir "repo").result = .ok "SUCCESS" ↔
        cloneEnvEmptyDir.cloneResult = .ok ()) :=
  (clone_index_tts_repo_non_git_dir cloneEnvEmptyDir "repo" rfl rfl rfl).1
    rfl rfl

end IndexTTSHub
